import Mathlib

/-!
Shallow embedding of the `univdev/fake-review-analyze` crawler.

The embedded code is the `St11` helper (`src/helpers/st11.helper.ts`, the
second file inside `src/src/interface/crawler-helper.interface.ts` in this
bundle), the URL validation schema (`src/src/schema/support-url.schema.ts`),
the `getSiteName` utility (`src/src/utils/common.ts`) and the main IIFE
(`src/unnamed/part_000`).

Modelling conventions:
* DOM state of the review panel is a list of container blocks
  (`.area_list` elements); each block carries the `data-crawl` marker flag
  and the `.review_list_element` items nested inside it.
* A Playwright locator read of a text field yields `Option String`:
  `none` models a locator failure (element absent / strict-mode violation),
  which in the source raises an exception caught by the per-item
  `try/catch`; `some s` models a successful `textContent()` read
  (element nodes always yield a string, so the `null` branch of
  `textContent` is not modelled).
* `moment(date).toDate()` never throws: on unparseable input it yields an
  Invalid Date. A date value is `Option Int` with `none` standing for
  Invalid Date, and each item records `dateParsed`, the value `moment`
  produces for its raw date text.
* Machine integers do not overflow in the modelled ranges; `maxCount` is
  an `Int` so that nonpositive counts can be stated.
-/

namespace FakeReview

/-- Leading-run test on character lists: `takesLead needle hay` holds when
`needle` is an initial segment of `hay`. Building block for the JS
`String.prototype.includes` model. -/
def takesLead : List Char → List Char → Bool
  | [], _ => true
  | _ :: _, [] => false
  | a :: as, b :: bs => a == b && takesLead as bs

/-- Occurrence test on character lists: `occursIn needle hay` holds when
`needle` occurs contiguously somewhere in `hay`. -/
def occursIn : List Char → List Char → Bool
  | n, [] => takesLead n []
  | n, h :: hs => takesLead n (h :: hs) || occursIn n hs

/-- JS `hay.includes(needle)`: substring containment on the underlying
character lists. -/
def jsIncludes (hay needle : String) : Bool :=
  occursIn needle.data hay.data

/-- Drops leading whitespace characters from a character list. -/
def dropLeadWs : List Char → List Char
  | [] => []
  | c :: cs => if c.isWhitespace then dropLeadWs cs else c :: cs

/-- JS `String.prototype.trim`: strip whitespace from both ends
(trailing side handled by reversing, dropping, reversing back). -/
def jsTrim (s : String) : String :=
  ⟨dropLeadWs (dropLeadWs s.data.reverse).reverse⟩

/-- One harvested record, as pushed onto `this.collection` by
`getReviewContentInElement`. `createdAt` is the `moment(date).toDate()`
value; `none` is JavaScript's Invalid Date. -/
structure Review where
  author : String
  score : String
  content : String
  createdAt : Option Int
  deriving DecidableEq, Repr

/-- One `.review_list_element` item as the scan pass sees it. Each text
field is the outcome of the corresponding locator read (`none` = the read
throws); `dateParsed` is what `moment` returns for the raw date text. -/
structure Item where
  authorText : Option String
  scoreText : Option String
  contentText : Option String
  dateText : Option String
  dateParsed : Option Int
  deriving DecidableEq, Repr

/-- Field extraction for one item, mirroring the `try` block of
`getReviewContentInElement` (lines 81-94): the four `textContent` reads are
attempted in order and any throw skips the item (`none`); the final
`moment(date).toDate()` call never throws, so a well-read item always
produces a full `Review`, with `createdAt` possibly Invalid Date. Each read
is trimmed as in the source (`?.trim()`). -/
def extractFields (it : Item) : Option Review :=
  match it.authorText with
  | none => none
  | some a =>
    match it.scoreText with
    | none => none
    | some s =>
      match it.contentText with
      | none => none
      | some c =>
        match it.dateText with
        | none => none
        | some _ => some ⟨jsTrim a, jsTrim s, jsTrim c, it.dateParsed⟩

/-- The `for (const element of elements)` loop of
`getReviewContentInElement` (lines 60-102): before each item the capacity
guard `this.collection.length >= this.maxCount` breaks out of the loop; a
failed extraction (`catch`) continues with the next item; a successful one
pushes the complete `Review`. -/
def processItems (maxCount : Int) (col : List Review) : List Item → List Review
  | [] => col
  | it :: rest =>
    if (col.length : Int) ≥ maxCount then col
    else
      match extractFields it with
      | none => processItems maxCount col rest
      | some r => processItems maxCount (col ++ [r]) rest

/-- One `.area_list` container block of the review panel: the `data-crawl`
marker flag and the `.review_list_element` items nested inside it. -/
structure RBlock where
  marked : Bool
  items : List Item
  deriving DecidableEq, Repr

/-- Failures of a scan pass: `waitTimeout` models
`waitFor({ state: 'visible' })` timing out because no unmarked container
exists; `strictViolation` models the Playwright strict-mode error raised
when the single-element locator operations (`waitFor` / `evaluate`) resolve
to more than one unmarked container. -/
inductive ScanError where
  | waitTimeout
  | strictViolation
  deriving DecidableEq, Repr

/-- Effect of `reviewContainerElement.evaluate(el => el.setAttribute('data-crawl', 'true'))`:
the locator resolves to the first container without the marker, and that
block receives it. -/
def markLead : List RBlock → List RBlock
  | [] => []
  | b :: bs => if b.marked then b :: markLead bs else { b with marked := true } :: bs

/-- The elements matched by
`'#review-list-page-area .area_list:not([data-crawl]) .review_list_element'`:
all items nested inside containers that (still) lack the marker, in panel
order. -/
def unmarkedItems (blocks : List RBlock) : List Item :=
  (blocks.filter fun b => !b.marked).foldr (fun b acc => b.items ++ acc) []

/-- One scan pass, `getReviewContentInElement` (lines 47-107): locate the
container without `data-crawl` (zero matches: the `waitFor` times out;
two or more matches: strict-mode violation), set the marker on it, then
re-query items under containers still lacking `data-crawl` and run the
per-item loop over them. Returns the updated panel and collection. -/
def scanPass (maxCount : Int) (blocks : List RBlock) (col : List Review) :
    Except ScanError (List RBlock × List Review) :=
  match blocks.filter fun b => !b.marked with
  | [] => .error .waitTimeout
  | [_] =>
    let blocks1 := markLead blocks
    .ok (blocks1, processItems maxCount col (unmarkedItems blocks1))
  | _ :: _ :: _ => .error .strictViolation

/-- The external panel environment: `advance k blocks` is the DOM state the
source serves after the `k`-th click on `button[name="review_more"]`, and
`moreAfter k` is whether that button `isVisible()` when checked after `k`
advances (the run checks it at most once per loop iteration, so indexing by
the advance count is fully general for one deterministic run). -/
structure CrawlEnv where
  advance : Nat → List RBlock → List RBlock
  moreAfter : Nat → Bool

/-- Observable outcome of the `while (true)` loop of `getReviewList`:
the collection, how many scan passes ran, how many load-more clicks
happened, whether the loop actually halted (`halted = false` only when the
modelling fuel ran out first), and the scan error that escaped, if any
(the source has no catch around the loop, so a scan error rejects
`getReviewList`). -/
structure RunResult where
  collection : List Review
  passes : Nat
  advances : Nat
  halted : Bool
  err : Option ScanError
  deriving DecidableEq, Repr

/-- The `while (true)` loop of `getReviewList` (lines 34-40): scan, then
`isContinue = false; if (collection.length < maxCount) isContinue = loadMoreReviews();`
where `loadMoreReviews` clicks the load-more button iff it is visible and
returns that visibility; `if (!isContinue) break`. `fuel` bounds the
modelled iterations; `k` counts advances and `p` counts completed passes. -/
def runLoop (env : CrawlEnv) (maxCount : Int) :
    Nat → List RBlock → Nat → List Review → Nat → RunResult
  | 0, _, k, col, p => ⟨col, p, k, false, none⟩
  | fuel + 1, blocks, k, col, p =>
    match scanPass maxCount blocks col with
    | .error e => ⟨col, p + 1, k, true, some e⟩
    | .ok (blocks1, col1) =>
      if (col1.length : Int) < maxCount then
        if env.moreAfter k then
          runLoop env maxCount fuel (env.advance k blocks1) (k + 1) col1 (p + 1)
        else ⟨col1, p + 1, k, true, none⟩
      else ⟨col1, p + 1, k, true, none⟩

/-- Filesystem behaviour visible to `exportCSV`: whether the callback-style
`mkdir` reports an error to its callback, and whether the `k`-th
`writeFile` call (0 = the header write, `k ≥ 1` = the append of the `k`-th
review line) rejects. -/
structure FSEnv where
  mkdirErr : Bool
  writeErr : Nat → Bool

/-- Header written by `exportCSV` before the data lines. -/
def csvHeader : String := "author,score,content,createdAt\n"

/-- One data line of the CSV: the template literal
`${review.author},${review.score},${review.content},${review.createdAt}\n`.
`showDate` renders the `Date` value (JavaScript `Date` stringification;
Invalid Date prints as `Invalid Date`); no quoting or escaping happens. -/
def reviewLine (showDate : Option Int → String) (r : Review) : String :=
  r.author ++ "," ++ r.score ++ "," ++ r.content ++ "," ++ showDate r.createdAt ++ "\n"

/-- Outcome of an export: the lines present in the destination file when
the call finishes, and `some destination` when `exportCSV` resolves
normally (`none` when a rejected `writeFile` propagates out of it). -/
structure ExportResult where
  fileLines : List String
  returned : Option String
  deriving DecidableEq, Repr

/-- The `for (const review of reviews)` append loop of `exportCSV`
(lines 131-133): each iteration issues one `writeFile(..., { flag: 'a' })`;
the first rejected write propagates immediately, leaving the lines already
appended in place. -/
def appendLoop (fs : FSEnv) (showDate : Option Int → String) (dest : String) :
    Nat → List String → List Review → ExportResult
  | _, acc, [] => ⟨acc, some dest⟩
  | k, acc, r :: rs =>
    if fs.writeErr k then ⟨acc, none⟩
    else appendLoop fs showDate dest (k + 1) (acc ++ [reviewLine showDate r]) rs

/-- Destination path computed by `exportCSV` (lines 122-123):
`path.join(process.cwd(), 'output')` then the timestamped filename with the
hard-coded `-11st-reviews.csv` suffix; `ts` is
`moment().format('YYYY-MM-DD_HH-mm-ss')`. -/
def exportDest (cwd ts : String) : String :=
  cwd ++ "/output/" ++ ts ++ "-11st-reviews.csv"

/-- The `exportCSV` method (lines 121-136). The callback-style
`mkdir(pathname, { recursive: true }, cb)` only `console.error`s inside its
callback, so `fs.mkdirErr` never influences control flow or the returned
value; the header `writeFile` (write index 0) truncates/creates the file,
and each review line is appended in collection order by `appendLoop`. -/
def exportCSV (fs : FSEnv) (cwd ts : String) (showDate : Option Int → String)
    (reviews : List Review) : ExportResult :=
  if fs.writeErr 0 then ⟨[], none⟩
  else appendLoop fs showDate (exportDest cwd ts) 1 [csvHeader] reviews

/-- Joint outcome of `getReviewList`: the loop result, the export outcome
when the loop finished without throwing, and the value returned to the
caller (`some collection` exactly when the method resolves, i.e. neither
the loop nor the export rejected). -/
structure CrawlOutcome where
  run : RunResult
  exported : Option ExportResult
  returned : Option (List Review)
  deriving DecidableEq, Repr

/-- The `getReviewList` method (lines 26-45): run the scan/paginate loop
starting from an empty collection, then `await this.exportCSV(this.collection)`,
then `return this.collection`. A scan error rejects before the export; an
export rejection prevents the return. The initial navigation and frame
lookup are summarised by the initial `blocks` state of the panel. -/
def getReviewList (env : CrawlEnv) (fs : FSEnv) (cwd ts : String)
    (showDate : Option Int → String) (maxCount : Int) (fuel : Nat)
    (blocks : List RBlock) : CrawlOutcome :=
  let res := runLoop env maxCount fuel blocks 0 [] 0
  if res.halted then
    match res.err with
    | some _ => ⟨res, none, none⟩
    | none =>
      let ex := exportCSV fs cwd ts showDate res.collection
      ⟨res, some ex, if ex.returned.isSome then some res.collection else none⟩
  else ⟨res, none, none⟩

/-- URL validation, `SUPPORT_URL_SCHEMA` (support-url.schema.ts lines 4-9):
`z.string().url()` (modelled by the external predicate `isURL`) refined by
`supportList.some(shopUrl => url.includes(shopUrl))`. `shops` stands for
`Object.entries(SUPPORT_SHOP_LIST)` as (key, url) pairs; the constants file
is not in the sources, so the registered list is kept abstract. -/
def supportUrlCheck (isURL : String → Bool) (shops : List (String × String))
    (url : String) : Bool :=
  isURL url && (shops.map fun shop => shop.2).any fun shopUrl => jsIncludes url shopUrl

/-- The `getSiteName` utility (common.ts lines 3-12). The source predicate
is `([key, url]) => url.includes(url)`: the destructured `url` shadows the
function's `url` parameter, so both occurrences denote the entry's own url
and the test is `jsIncludes e.2 e.2`; the `url` argument is therefore
unused, exactly as in the source. `none` models the thrown
unsupported-shop error. -/
def getSiteName (shops : List (String × String)) (url : String) : Option String :=
  let supportList := shops.map fun e => (e.1, e.2)
  match supportList.find? fun e => jsIncludes e.2 e.2 with
  | none => none
  | some e => some e.1

/-- Hard failures the main IIFE can raise before or instead of crawling. -/
inductive MainError where
  | unsupportedUrl
  | unsupportedShop
  deriving DecidableEq, Repr

/-- Outcome of the main IIFE: whether `page.goto(url)` ran (the first
interaction with the target page, which the source performs only after
validation succeeds), and either a hard failure or the dispatch result
(`some` crawl outcome when the 11st branch ran, `none` when no helper
matched and the IIFE just ended). -/
structure MainResult where
  navigated : Bool
  outcome : Except MainError (Option CrawlOutcome)
  deriving Repr

/-- The main IIFE (`src/unnamed/part_000` lines 9-37): `safeParse` the URL
against `SUPPORT_URL_SCHEMA` and throw on failure before any page
navigation; otherwise navigate, call `getSiteName`, and run the `St11`
helper when the site key is the 11st one. The literal "11st" key stands for
`SUPPORT_SHOP_NAME["11st"]`; modelled from the spec: the constants file
defining it is not among the sources, and the spec names 11st as the
registered source. -/
def mainRun (isURL : String → Bool) (shops : List (String × String))
    (env : CrawlEnv) (fs : FSEnv) (cwd ts : String) (showDate : Option Int → String)
    (fuel : Nat) (blocks : List RBlock) (url : String) (maxCount : Int) : MainResult :=
  if supportUrlCheck isURL shops url then
    match getSiteName shops url with
    | none => ⟨true, .error .unsupportedShop⟩
    | some siteName =>
      if siteName = "11st" then
        ⟨true, .ok (some (getReviewList env fs cwd ts showDate maxCount fuel blocks))⟩
      else ⟨true, .ok none⟩
  else ⟨false, .error .unsupportedUrl⟩

theorem processItems_eq (maxCount : Int) (items : List Item) :
    ∀ col : List Review,
      processItems maxCount col items
        = col ++ (items.filterMap extractFields).take
            (maxCount - (col.length : Int)).toNat := by
  induction items with
  | nil => intro col; simp [processItems]
  | cons it rest ih =>
    intro col
    by_cases hcap : (col.length : Int) ≥ maxCount
    · have h0 : (maxCount - (col.length : Int)).toNat = 0 := by omega
      simp [processItems, hcap, h0]
    · have hlt : (col.length : Int) < maxCount := by omega
      cases hext : extractFields it with
      | none =>
        simp [processItems, hcap, hext, ih col]
      | some r =>
        have htake : (maxCount - (col.length : Int)).toNat
            = (maxCount - ((col ++ [r]).length : Int)).toNat + 1 := by
          simp only [List.length_append, List.length_cons, List.length_nil]
          push_cast
          omega
        have hunfold : processItems maxCount col (it :: rest)
            = processItems maxCount (col ++ [r]) rest := by
          simp [processItems, hcap, hext]
        have hfm : List.filterMap extractFields (it :: rest)
            = r :: List.filterMap extractFields rest := by
          simp [List.filterMap_cons, hext]
        rw [hunfold, ih (col ++ [r]), htake, hfm, List.take_succ_cons,
          List.append_assoc, List.singleton_append]

theorem scanPass_collection (maxCount : Int) (blocks : List RBlock) (col : List Review)
    (blocks1 : List RBlock) (col1 : List Review)
    (h : scanPass maxCount blocks col = .ok (blocks1, col1)) :
    ∃ t, col1 = col ++ t ∧ t.length ≤ (maxCount - (col.length : Int)).toNat := by
  unfold scanPass at h
  split at h
  · exact absurd h (by simp)
  · rw [Except.ok.injEq, Prod.mk.injEq] at h
    refine ⟨(List.filterMap extractFields (unmarkedItems (markLead blocks))).take
      (maxCount - (col.length : Int)).toNat, ?_, ?_⟩
    · rw [← h.2, processItems_eq]
    · exact le_trans (List.length_take_le _ _) (le_refl _)
  · exact absurd h (by simp)

theorem runLoop_length (env : CrawlEnv) (maxCount : Int) :
    ∀ (fuel : Nat) (blocks : List RBlock) (k : Nat) (col : List Review) (p : Nat),
      (col.length : Int) ≤ maxCount →
      ((runLoop env maxCount fuel blocks k col p).collection.length : Int) ≤ maxCount := by
  intro fuel
  induction fuel with
  | zero => intro blocks k col p h; simpa [runLoop] using h
  | succ f ih =>
    intro blocks k col p h
    simp only [runLoop]
    cases hs : scanPass maxCount blocks col with
    | error e => simpa using h
    | ok pair =>
      obtain ⟨blocks1, col1⟩ := pair
      obtain ⟨t, ht, hlen⟩ := scanPass_collection _ _ _ _ _ hs
      have hc1 : (col1.length : Int) ≤ maxCount := by
        subst ht
        rw [List.length_append]
        push_cast
        omega
      by_cases hlt : (col1.length : Int) < maxCount
      · by_cases hm : env.moreAfter k
        · simpa [hlt, hm] using ih (env.advance k blocks1) (k + 1) col1 (p + 1) hc1
        · simpa [hlt, hm] using hc1
      · simpa [hlt] using hc1

theorem runLoop_halts (env : CrawlEnv) (maxCount : Int) (M : Nat)
    (hM : ∀ j, M ≤ j → env.moreAfter j = false) :
    ∀ (fuel k : Nat) (blocks : List RBlock) (col : List Review) (p : Nat),
      k ≤ M → M + 1 ≤ k + fuel →
      (runLoop env maxCount fuel blocks k col p).halted = true ∧
      (runLoop env maxCount fuel blocks k col p).passes ≤ p + (M + 1 - k) := by
  intro fuel
  induction fuel with
  | zero => intro k blocks col p hk hf; omega
  | succ f ih =>
    intro k blocks col p hk hf
    cases hs : scanPass maxCount blocks col with
    | error e =>
      simp only [runLoop, hs]
      exact ⟨trivial, by omega⟩
    | ok pair =>
      obtain ⟨blocks1, col1⟩ := pair
      by_cases hlt : (col1.length : Int) < maxCount
      · by_cases hm : env.moreAfter k
        · have hkM : k < M := by
            by_contra hge
            have hfalse : env.moreAfter k = false := hM k (by omega)
            rw [hfalse] at hm
            exact absurd hm (by simp)
          have hrec := ih (k + 1) (env.advance k blocks1) col1 (p + 1) (by omega) (by omega)
          simp only [runLoop, hs, if_pos hlt, hm, if_true]
          refine ⟨hrec.1, ?_⟩
          have h2 := hrec.2
          omega
        · simp only [runLoop, hs, if_pos hlt]
          rw [if_neg (by simpa using hm)]
          refine ⟨rfl, ?_⟩
          show p + 1 ≤ p + (M + 1 - k)
          omega
      · simp only [runLoop, hs, if_neg hlt]
        refine ⟨trivial, ?_⟩
        show p + 1 ≤ p + (M + 1 - k)
        omega

theorem takesLead_self : ∀ l : List Char, takesLead l l = true := by
  intro l
  induction l with
  | nil => rfl
  | cons a as ih => simp [takesLead, ih]

theorem occursIn_self (l : List Char) : occursIn l l = true := by
  cases l with
  | nil => rfl
  | cons h hs => simp [occursIn, takesLead_self]

theorem jsIncludes_self (s : String) : jsIncludes s s = true :=
  occursIn_self s.data

theorem appendLoop_ok (fs : FSEnv) (showDate : Option Int → String) (dest : String) :
    ∀ (rs : List Review) (k : Nat) (acc : List String),
      (∀ i, k ≤ i → i < k + rs.length → fs.writeErr i = false) →
      appendLoop fs showDate dest k acc rs
        = ⟨acc ++ rs.map (reviewLine showDate), some dest⟩ := by
  intro rs
  induction rs with
  | nil => intro k acc _; simp [appendLoop]
  | cons r rest ih =>
    intro k acc h
    have hk : fs.writeErr k = false := h k (le_refl k) (by simp)
    rw [appendLoop, hk]
    simp only [Bool.false_eq_true, if_false]
    rw [ih (k + 1) (acc ++ [reviewLine showDate r])
      (fun i h1 h2 => h i (by omega) (by simp only [List.length_cons]; omega))]
    simp

theorem appendLoop_fail (fs : FSEnv) (showDate : Option Int → String) (dest : String)
    (j : Nat) (hj : fs.writeErr j = true) :
    ∀ (rs : List Review) (k : Nat) (acc : List String),
      k ≤ j → j < k + rs.length →
      (∀ i, k ≤ i → i < j → fs.writeErr i = false) →
      appendLoop fs showDate dest k acc rs
        = ⟨acc ++ (rs.take (j - k)).map (reviewLine showDate), none⟩ := by
  intro rs
  induction rs with
  | nil => intro k acc h1 h2 h3; simp at h2; omega
  | cons r rest ih =>
    intro k acc h1 h2 h3
    by_cases hkj : k = j
    · subst hkj
      rw [appendLoop, hj]
      simp
    · have hkf : fs.writeErr k = false := h3 k (le_refl k) (by omega)
      rw [appendLoop, hkf]
      simp only [Bool.false_eq_true, if_false]
      rw [ih (k + 1) (acc ++ [reviewLine showDate r]) (by omega)
        (by simp only [List.length_cons] at h2 ⊢; omega)
        (fun i hi1 hi2 => h3 i (by omega) hi2)]
      have hsplit : j - k = (j - (k + 1)) + 1 := by omega
      rw [hsplit, List.take_succ_cons]
      simp

/-- C1: the claim says a scan pass marks every unmarked container block and
then enumerates exactly the items nested inside those newly-marked blocks.
The code does the opposite: on a panel with a single unmarked block holding
one well-formed item, the pass sets `data-crawl` on it and then queries
`.area_list:not([data-crawl]) .review_list_element`, which excludes the
block it just marked, so nothing is enumerated and the collection stays
empty even though the item extracts fine; a second pass over the unchanged
panel then finds no unmarked container and throws the wait timeout. -/
theorem scan_pass_dead_enumeration :
    extractFields ⟨some "A", some "5", some "nice", some "2024-01-02", some 0⟩
      = some ⟨"A", "5", "nice", some 0⟩
    ∧ scanPass 10 [⟨false, [⟨some "A", some "5", some "nice", some "2024-01-02", some 0⟩]⟩] []
      = .ok ([⟨true, [⟨some "A", some "5", some "nice", some "2024-01-02", some 0⟩]⟩], [])
    ∧ scanPass 10 [⟨true, [⟨some "A", some "5", some "nice", some "2024-01-02", some 0⟩]⟩] []
      = .error .waitTimeout := by
  refine ⟨rfl, rfl, rfl⟩

/-- C2: the capacity invariant. The per-item loop appends at most the
remaining capacity `(maxCount - length).toNat` of new Reviews and never
removes any; consequently every state of the run loop (which threads the
collection through exactly these appends) keeps `length ≤ maxCount`, and a
run started from the empty collection with `maxCount ≥ 0` keeps it at all
times, in particular at the end. -/
theorem capacity_invariant (env : CrawlEnv) (maxCount : Int) (hmc : 0 ≤ maxCount) :
    (∀ (col : List Review) (items : List Item), ∃ t : List Review,
        processItems maxCount col items = col ++ t ∧
        t.length ≤ (maxCount - (col.length : Int)).toNat)
    ∧ (∀ (fuel k p : Nat) (blocks : List RBlock) (col : List Review),
        (col.length : Int) ≤ maxCount →
        ((runLoop env maxCount fuel blocks k col p).collection.length : Int) ≤ maxCount)
    ∧ (∀ (fuel : Nat) (blocks : List RBlock),
        ((runLoop env maxCount fuel blocks 0 [] 0).collection.length : Int) ≤ maxCount) := by
  refine ⟨?_, ?_, ?_⟩
  · intro col items
    exact ⟨_, processItems_eq maxCount items col, List.length_take_le _ _⟩
  · intro fuel k p blocks col h
    exact runLoop_length env maxCount fuel blocks k col p h
  · intro fuel blocks
    exact runLoop_length env maxCount fuel blocks 0 [] 0 (by simpa using hmc)

theorem capacity_invariant_witness :
    (0 : Int) ≤ 2 ∧
    ((runLoop ⟨fun _ b => b, fun _ => false⟩ 2 1 [⟨false, []⟩] 0 [] 0).collection.length : Int)
      ≤ 2 :=
  ⟨by decide,
    (capacity_invariant ⟨fun _ b => b, fun _ => false⟩ 2 (by decide)).2.2 1 [⟨false, []⟩]⟩

/-- C3: per-item isolation in the scan pass's item loop. The loop equals
taking, within the remaining capacity, exactly the successfully extracted
Reviews in order: a malformed item contributes nothing (no partial Review,
processing continues, the fold is total so no exception escapes), and
extraction fails precisely when one of the four field reads fails,
otherwise it yields a complete Review. -/
theorem per_item_isolation :
    (∀ (maxCount : Int) (col : List Review) (items : List Item),
        processItems maxCount col items
          = col ++ (items.filterMap extractFields).take
              (maxCount - (col.length : Int)).toNat)
    ∧ (∀ it : Item, extractFields it = none ↔
        (it.authorText = none ∨ it.scoreText = none ∨ it.contentText = none ∨
          it.dateText = none)) := by
  constructor
  · intro maxCount col items
    exact processItems_eq maxCount items col
  · intro it
    obtain ⟨a, s, c, d, dp⟩ := it
    cases a <;> cases s <;> cases c <;> cases d <;> simp [extractFields]

/-- C4: termination. First part: if the load-more affordance is no longer
visible after `M` successful advances, then (for any `maxCount` and any
panel contents, with enough fuel) the loop halts and performs at most
`M + 1` scan passes: each iteration runs one pass and recurses only when
the affordance was still visible, which can happen at most `M` times.
More generally, the run stops in finite steps as soon as either stop
condition fires, for any environment whatsoever: if a scan pass ends with
the collection at `maxCount`, the loop halts right there without even
consulting the affordance (second part, usable with an affordance that
stays visible forever), and if the pagination driver reports no more
content after a pass, the loop halts right there as well (third part). -/
theorem termination_bound (env : CrawlEnv) (maxCount : Int) (fuel : Nat)
    (blocks : List RBlock) :
    (∀ M : Nat, (∀ j, M ≤ j → env.moreAfter j = false) → M + 1 ≤ fuel →
      (runLoop env maxCount fuel blocks 0 [] 0).halted = true ∧
      (runLoop env maxCount fuel blocks 0 [] 0).passes ≤ M + 1)
    ∧ (∀ (f k p : Nat) (blocks2 blocks1 : List RBlock) (col col1 : List Review),
        scanPass maxCount blocks2 col = .ok (blocks1, col1) →
        maxCount ≤ (col1.length : Int) →
        runLoop env maxCount (f + 1) blocks2 k col p = ⟨col1, p + 1, k, true, none⟩)
    ∧ (∀ (f k p : Nat) (blocks2 blocks1 : List RBlock) (col col1 : List Review),
        scanPass maxCount blocks2 col = .ok (blocks1, col1) →
        env.moreAfter k = false →
        runLoop env maxCount (f + 1) blocks2 k col p = ⟨col1, p + 1, k, true, none⟩) := by
  refine ⟨?_, ?_, ?_⟩
  · intro M hM hfuel
    have h := runLoop_halts env maxCount M hM fuel 0 blocks [] 0 (Nat.zero_le M) (by omega)
    refine ⟨h.1, ?_⟩
    have h2 := h.2
    omega
  · intro f k p blocks2 blocks1 col col1 hsc hcap
    simp only [runLoop, hsc]
    rw [if_neg (by omega)]
  · intro f k p blocks2 blocks1 col col1 hsc hmf
    by_cases hlt : (col1.length : Int) < maxCount
    · simp only [runLoop, hsc, if_pos hlt]
      rw [if_neg (by simp [hmf])]
    · simp only [runLoop, hsc]
      rw [if_neg hlt]

theorem termination_bound_witness :
    ((runLoop ⟨fun _ b => b, fun _ => false⟩ 7 1 [⟨false, []⟩] 0 [] 0).halted = true ∧
      (runLoop ⟨fun _ b => b, fun _ => false⟩ 7 1 [⟨false, []⟩] 0 [] 0).passes ≤ 0 + 1)
    ∧ runLoop ⟨fun _ b => b, fun _ => true⟩ 0 3 [⟨false, []⟩] 0 [] 0
        = ⟨[], 1, 0, true, none⟩ :=
  ⟨(termination_bound ⟨fun _ b => b, fun _ => false⟩ 7 1 [⟨false, []⟩]).1 0
      (fun _ _ => rfl) (by decide),
    (termination_bound ⟨fun _ b => b, fun _ => true⟩ 0 3 [⟨false, []⟩]).2.1 2 0 0
      [⟨false, []⟩] [⟨true, []⟩] [] [] rfl (by decide)⟩

theorem getSiteName_cons (url : String) (e : String × String)
    (rest : List (String × String)) :
    getSiteName (e :: rest) url = some e.1 := by
  unfold getSiteName
  simp only [List.map_cons]
  rw [List.find?_cons_of_pos]
  exact jsIncludes_self e.2

/-- C10: because the `find` predicate of `getSiteName` shadows the `url`
parameter with the entry's own url, its test is self-containment, which
holds for every entry; hence for any input string and any non-empty
registered shop list the function returns the first shop's key and never
reaches the unsupported-shop throw. -/
theorem get_site_name_first_key (url : String) (e : String × String)
    (rest : List (String × String)) :
    getSiteName (e :: rest) url = some e.1 :=
  getSiteName_cons url e rest

/-- C5: export format. When no write fails, the destination file is exactly
the header line `author,score,content,createdAt\n` followed by one line per
Review in insertion order, each line the four fields comma-joined with no
quoting or escaping and `\n`-terminated; the destination path is
`<cwd>/output/<ts>-11st-reviews.csv` and is returned, and `getReviewList`
(when its loop halted without a scan error) returns the in-memory
collection to the caller. -/
theorem export_csv_format (fs : FSEnv) (cwd ts : String)
    (showDate : Option Int → String) (reviews : List Review) (env : CrawlEnv)
    (maxCount : Int) (fuel : Nat) (blocks : List RBlock)
    (hw : ∀ k, fs.writeErr k = false) :
    exportCSV fs cwd ts showDate reviews
      = ⟨csvHeader :: reviews.map (reviewLine showDate),
          some (cwd ++ "/output/" ++ ts ++ "-11st-reviews.csv")⟩
    ∧ (∀ r : Review, reviewLine showDate r
        = r.author ++ "," ++ r.score ++ "," ++ r.content ++ ","
            ++ showDate r.createdAt ++ "\n")
    ∧ ((runLoop env maxCount fuel blocks 0 [] 0).halted = true →
        (runLoop env maxCount fuel blocks 0 [] 0).err = none →
        (getReviewList env fs cwd ts showDate maxCount fuel blocks).returned
          = some (runLoop env maxCount fuel blocks 0 [] 0).collection) := by
  have hexp : ∀ rv : List Review, exportCSV fs cwd ts showDate rv
      = ⟨csvHeader :: rv.map (reviewLine showDate), some (exportDest cwd ts)⟩ := by
    intro rv
    rw [exportCSV, hw 0]
    simp only [Bool.false_eq_true, if_false]
    rw [appendLoop_ok fs showDate (exportDest cwd ts) rv 1 [csvHeader]
      (fun i _ _ => hw i)]
    simp
  refine ⟨hexp reviews, fun r => rfl, ?_⟩
  intro h1 h2
  rw [getReviewList]
  simp only [h1, if_true, h2, hexp]
  simp

theorem export_csv_format_witness :
    exportCSV ⟨false, fun _ => false⟩ "/w" "T" (fun _ => "d") [⟨"A", "5", "x", none⟩]
      = ⟨csvHeader :: [(⟨"A", "5", "x", none⟩ : Review)].map (reviewLine fun _ => "d"),
          some ("/w" ++ "/output/" ++ "T" ++ "-11st-reviews.csv")⟩ :=
  (export_csv_format ⟨false, fun _ => false⟩ "/w" "T" (fun _ => "d")
    [⟨"A", "5", "x", none⟩] ⟨fun _ b => b, fun _ => false⟩ 1 1 [⟨false, []⟩]
    (fun _ => rfl)).1

/-- C6: unsupported-source rejection. A URL containing no registered shop's
url fails validation and the main IIFE throws the unsupported-source error
without navigating to the page (so before any panel interaction); a
well-formed URL (the `z.string().url()` gate, modelled by `isURL`) that
does contain a registered shop's url passes validation, the page is
navigated and the dispatch completes without a hard failure. -/
theorem unsupported_source_rejection (isURL : String → Bool)
    (shops : List (String × String)) (env : CrawlEnv) (fs : FSEnv)
    (cwd ts : String) (showDate : Option Int → String) (fuel : Nat)
    (blocks : List RBlock) (url : String) (maxCount : Int) :
    ((∀ su ∈ shops.map (fun shop => shop.2), jsIncludes url su = false) →
      mainRun isURL shops env fs cwd ts showDate fuel blocks url maxCount
        = ⟨false, .error .unsupportedUrl⟩)
    ∧ (isURL url = true →
      (∃ su ∈ shops.map (fun shop => shop.2), jsIncludes url su = true) →
      supportUrlCheck isURL shops url = true
      ∧ (mainRun isURL shops env fs cwd ts showDate fuel blocks url maxCount).navigated
          = true
      ∧ ∃ o, (mainRun isURL shops env fs cwd ts showDate fuel blocks url maxCount).outcome
          = .ok o) := by
  constructor
  · intro hall
    have hchk : supportUrlCheck isURL shops url = false := by
      have hany : (shops.map fun shop => shop.2).any
          (fun shopUrl => jsIncludes url shopUrl) = false := by
        rw [List.any_eq_false]
        intro su hsu
        simp [hall su hsu]
      simp [supportUrlCheck, hany]
    simp [mainRun, hchk]
  · intro hurl hex
    have hchk : supportUrlCheck isURL shops url = true := by
      have hany : (shops.map fun shop => shop.2).any
          (fun shopUrl => jsIncludes url shopUrl) = true := by
        rw [List.any_eq_true]
        obtain ⟨su, hsu, hinc⟩ := hex
        exact ⟨su, hsu, hinc⟩
      simp [supportUrlCheck, hurl, hany]
    refine ⟨hchk, ?_, ?_⟩
    · obtain ⟨su, hsu, _⟩ := hex
      cases shops with
      | nil => simp at hsu
      | cons e rest =>
        simp only [mainRun, hchk, if_true]
        rw [getSiteName_cons]
        by_cases he : e.1 = "11st" <;> simp [he]
    · obtain ⟨su, hsu, _⟩ := hex
      cases shops with
      | nil => simp at hsu
      | cons e rest =>
        simp only [mainRun, hchk, if_true]
        rw [getSiteName_cons]
        by_cases he : e.1 = "11st" <;> simp [he]

theorem unsupported_source_rejection_witness :
    supportUrlCheck (fun _ => true) [("11st", "www.11st.co.kr")]
      "https://www.11st.co.kr/products/1" = true
    ∧ (mainRun (fun _ => true) [("11st", "www.11st.co.kr")]
        ⟨fun _ b => b, fun _ => false⟩ ⟨false, fun _ => false⟩ "/w" "T"
        (fun _ => "d") 1 [⟨false, []⟩] "https://www.11st.co.kr/products/1" 1).navigated
        = true
    ∧ ∃ o, (mainRun (fun _ => true) [("11st", "www.11st.co.kr")]
        ⟨fun _ b => b, fun _ => false⟩ ⟨false, fun _ => false⟩ "/w" "T"
        (fun _ => "d") 1 [⟨false, []⟩] "https://www.11st.co.kr/products/1" 1).outcome
        = .ok o :=
  (unsupported_source_rejection (fun _ => true) [("11st", "www.11st.co.kr")]
    ⟨fun _ b => b, fun _ => false⟩ ⟨false, fun _ => false⟩ "/w" "T"
    (fun _ => "d") 1 [⟨false, []⟩] "https://www.11st.co.kr/products/1" 1).2
    rfl ⟨"www.11st.co.kr", by decide, by decide⟩

/-- C7 counterexample: an item whose four text reads succeed but whose raw
date text fails to parse is NOT skipped: `moment(date).toDate()` yields an
Invalid Date without throwing, so the pass records a Review for it (with
`createdAt` the Invalid Date), contradicting the claim that a date-parse
failure is treated like any other field failure. -/
theorem unparseable_date_recorded :
    processItems 10 [] [⟨some "A", some "5", some "hello", some "not-a-date", none⟩]
      = [⟨"A", "5", "hello", none⟩]
    ∧ processItems 10 [] [⟨some "A", some "5", some "hello", some "not-a-date", none⟩]
      ≠ [] := by
  refine ⟨rfl, ?_⟩
  intro h
  rw [show processItems 10 [] [⟨some "A", some "5", some "hello", some "not-a-date", none⟩]
      = [⟨"A", "5", "hello", none⟩] from rfl] at h
  exact List.cons_ne_nil _ _ h

/-- C7 amended: only a failure reading one of the four text fields skips an
item; a date-text that merely fails to parse does not, because `moment`
never throws — the item is recorded as a Review whose `createdAt` is the
(possibly Invalid) parsed date value. -/
theorem date_parse_failure_not_skipped (it : Item) (a s c d : String)
    (ha : it.authorText = some a) (hsc : it.scoreText = some s)
    (hc : it.contentText = some c) (hd : it.dateText = some d) :
    extractFields it = some ⟨jsTrim a, jsTrim s, jsTrim c, it.dateParsed⟩
    ∧ ∀ (maxCount : Int) (col : List Review), (col.length : Int) < maxCount →
        processItems maxCount col [it]
          = col ++ [⟨jsTrim a, jsTrim s, jsTrim c, it.dateParsed⟩] := by
  have hext : extractFields it = some ⟨jsTrim a, jsTrim s, jsTrim c, it.dateParsed⟩ := by
    simp [extractFields, ha, hsc, hc, hd]
  refine ⟨hext, ?_⟩
  intro maxCount col hlt
  simp [processItems, hext, show ¬ ((col.length : Int) ≥ maxCount) from by omega]

theorem date_parse_failure_not_skipped_witness :
    extractFields ⟨some "B", some "4", some "ok", some "???", none⟩
      = some ⟨jsTrim "B", jsTrim "4", jsTrim "ok", none⟩
    ∧ ∀ (maxCount : Int) (col : List Review), (col.length : Int) < maxCount →
        processItems maxCount col [⟨some "B", some "4", some "ok", some "???", none⟩]
          = col ++ [⟨jsTrim "B", jsTrim "4", jsTrim "ok", none⟩] :=
  date_parse_failure_not_skipped ⟨some "B", some "4", some "ok", some "???", none⟩
    "B" "4" "ok" "???" rfl rfl rfl rfl

/-- C8 counterexample: with `maxCount = 0` the run does return an empty
collection, but a scan pass IS attempted: the `while` body calls
`getReviewContentInElement` before any capacity check, so the pass count is
1, contradicting "no scan pass against the panel is attempted". -/
theorem zero_maxcount_scan_attempted :
    (runLoop ⟨fun _ b => b, fun _ => false⟩ 0 3 [⟨false, []⟩] 0 [] 0).collection = []
    ∧ (runLoop ⟨fun _ b => b, fun _ => false⟩ 0 3 [⟨false, []⟩] 0 [] 0).passes = 1
    ∧ ¬ (runLoop ⟨fun _ b => b, fun _ => false⟩ 0 3 [⟨false, []⟩] 0 [] 0).passes = 0 := by
  refine ⟨rfl, rfl, by decide⟩

/-- C8 amended: for `maxCount ≤ 0` the run returns an empty collection and
never advances the pagination, but it attempts exactly one scan pass (the
loop body scans before checking capacity) before terminating. -/
theorem nonpositive_maxcount_behaviour (env : CrawlEnv) (maxCount : Int)
    (fuel : Nat) (blocks : List RBlock) (hmc : maxCount ≤ 0) (hf : 1 ≤ fuel) :
    (runLoop env maxCount fuel blocks 0 [] 0).collection = []
    ∧ (runLoop env maxCount fuel blocks 0 [] 0).passes = 1
    ∧ (runLoop env maxCount fuel blocks 0 [] 0).advances = 0
    ∧ (runLoop env maxCount fuel blocks 0 [] 0).halted = true := by
  obtain ⟨f, rfl⟩ : ∃ f, fuel = f + 1 := ⟨fuel - 1, by omega⟩
  cases hs : scanPass maxCount blocks [] with
  | error e => simp [runLoop, hs]
  | ok pair =>
    obtain ⟨blocks1, col1⟩ := pair
    obtain ⟨t, ht, hlen⟩ := scanPass_collection _ _ _ _ _ hs
    have hcol1 : col1 = [] := by
      have h0 : (maxCount - ((([] : List Review)).length : Int)).toNat = 0 := by
        simp
        omega
      rw [h0] at hlen
      rw [ht, List.length_eq_zero.mp (Nat.le_zero.mp hlen)]
      rfl
    subst hcol1
    simp [runLoop, hs, show ¬ ((0 : Int) < maxCount) from by omega]

theorem nonpositive_maxcount_behaviour_witness :
    (runLoop ⟨fun _ b => b, fun _ => true⟩ (-2) 5 [⟨false, []⟩] 0 [] 0).collection = []
    ∧ (runLoop ⟨fun _ b => b, fun _ => true⟩ (-2) 5 [⟨false, []⟩] 0 [] 0).passes = 1
    ∧ (runLoop ⟨fun _ b => b, fun _ => true⟩ (-2) 5 [⟨false, []⟩] 0 [] 0).advances = 0
    ∧ (runLoop ⟨fun _ b => b, fun _ => true⟩ (-2) 5 [⟨false, []⟩] 0 [] 0).halted = true :=
  nonpositive_maxcount_behaviour ⟨fun _ b => b, fun _ => true⟩ (-2) 5 [⟨false, []⟩]
    (by decide) (by decide)

/-- C9 counterexample: a directory-creation failure is NOT reported to the
caller: the callback-style `mkdir` only logs its error, so with
`mkdirErr = true` and all writes succeeding `exportCSV` resolves normally
and returns the destination path instead of failing. -/
theorem mkdir_failure_not_propagated :
    (⟨true, fun _ => false⟩ : FSEnv).mkdirErr = true
    ∧ (exportCSV ⟨true, fun _ => false⟩ "/w" "T" (fun _ => "d")
        [⟨"A", "5", "x", none⟩]).returned
      = some ("/w" ++ "/output/" ++ "T" ++ "-11st-reviews.csv") := by
  exact ⟨rfl, rfl⟩

theorem appendLoop_writeErr_only (w : Nat → Bool) (b b' : Bool)
    (showDate : Option Int → String) (dest : String) :
    ∀ (rs : List Review) (k : Nat) (acc : List String),
      appendLoop ⟨b, w⟩ showDate dest k acc rs
        = appendLoop ⟨b', w⟩ showDate dest k acc rs := by
  intro rs
  induction rs with
  | nil => intro k acc; rfl
  | cons r rest ih =>
    intro k acc
    rw [appendLoop, appendLoop]
    by_cases hw : w k <;> simp [hw, ih]

/-- C9 amended: a failing `writeFile` is propagated to the caller (the
export rejects, with no retry) and the lines already written stay in the
file unchanged (no rollback); a directory-creation failure, however, is
only logged by the `mkdir` callback and never propagates (though the
subsequent writes may then fail on their own and propagate). -/
theorem export_write_failure_propagates (fs : FSEnv) (cwd ts : String)
    (showDate : Option Int → String) (reviews : List Review) (j : Nat)
    (h0 : fs.writeErr 0 = false) (hj : fs.writeErr j = true) (hj1 : 1 ≤ j)
    (hjn : j ≤ reviews.length)
    (hprev : ∀ i, 1 ≤ i → i < j → fs.writeErr i = false) :
    exportCSV fs cwd ts showDate reviews
      = ⟨csvHeader :: (reviews.take (j - 1)).map (reviewLine showDate), none⟩
    ∧ ∀ b : Bool, exportCSV ⟨b, fs.writeErr⟩ cwd ts showDate reviews
        = exportCSV fs cwd ts showDate reviews := by
  constructor
  · rw [exportCSV, h0]
    simp only [Bool.false_eq_true, if_false]
    rw [appendLoop_fail fs showDate (exportDest cwd ts) j hj reviews 1 [csvHeader]
      (by omega) (by omega) (fun i h1 h2 => hprev i h1 h2)]
    simp
  · intro b
    rw [exportCSV, exportCSV]
    by_cases hw0 : fs.writeErr 0
    · simp [hw0]
    · simp only [show (⟨b, fs.writeErr⟩ : FSEnv).writeErr = fs.writeErr from rfl,
        hw0, Bool.false_eq_true, if_false]
      exact appendLoop_writeErr_only fs.writeErr b fs.mkdirErr showDate
        (exportDest cwd ts) reviews 1 [csvHeader]

theorem export_write_failure_propagates_witness :
    exportCSV ⟨false, fun k => decide (k = 1)⟩ "/w" "T" (fun _ => "d")
        [⟨"A", "5", "x", none⟩]
      = ⟨csvHeader :: ([(⟨"A", "5", "x", none⟩ : Review)].take 0).map
          (reviewLine fun _ => "d"), none⟩
    ∧ ∀ b : Bool, exportCSV ⟨b, fun k => decide (k = 1)⟩ "/w" "T" (fun _ => "d")
        [⟨"A", "5", "x", none⟩]
      = exportCSV ⟨false, fun k => decide (k = 1)⟩ "/w" "T" (fun _ => "d")
        [⟨"A", "5", "x", none⟩] :=
  export_write_failure_propagates ⟨false, fun k => decide (k = 1)⟩ "/w" "T"
    (fun _ => "d") [⟨"A", "5", "x", none⟩] 1 (by decide) (by decide) (by decide)
    (by decide) (fun i hi1 hi2 => by omega)

end FakeReview
